import Mathlib

/-!
Verification development for the mymediset chat agent repository.

The repository wires an AI chat agent (app.tsx, tools.ts, bookingTools,
onPremiseBookingTools, apiUtils) to a confirmation gate and a task
scheduler.  Pure logic from the source files is embedded directly as Lean
functions.  The confirmation-gate core (the server-side processing of tool
calls and approval signals) and the scheduler store live outside the
available source tree; those parts are modelled from the specification and
are marked `Modelled from the spec:` in their doc comments.
-/

/-- Names of the tools exported by tools.ts (`export const tools = {...}`,
tools.ts lines 145-167).  The consumption/user-info query tools are included
as listed there. -/
inductive ToolName
  | getLocalTime
  | getBookingInformation
  | getAllBookings
  | createBooking
  | scheduleTask
  | getScheduledTasks
  | cancelScheduledTask
  | getBookingTypes
  | getCustomers
  | getShipToAddresses
  | getMaterials
  | updateBooking
  | getUserLoginStatus
  | getUserInfo
  | getConsumptionRequest
  | getConsumptionRequests
  | getConsumptionRequestsByStatus
  | getConsumptionRequestsByCustomer
  | searchConsumptionRequestsByCaseRef
  | getConsumptionRequestStatusCodes
deriving DecidableEq, Repr

/-- The list of tools that require human confirmation, from app.tsx lines
34-37 (`const toolsRequiringConfirmation = ["createBooking", "updateBooking"]`).
These are exactly the tools whose definitions omit an execute function
(bookingTools, `createBooking` and `updateBooking`). -/
def toolsRequiringConfirmation : List ToolName :=
  [ToolName.createBooking, ToolName.updateBooking]

/-- A tool requires confirmation iff it is in `toolsRequiringConfirmation`. -/
def requiresConfirmation (t : ToolName) : Bool :=
  toolsRequiringConfirmation.contains t

/-- The execute function of the `getLocalTime` tool (tools.ts lines 50-57):
it ignores the location (after logging) and returns the string "10am". -/
def getLocalTime_execute (location : String) : String := "10am"

/-- A tool-call request emitted by the model.  Arguments are kept abstract
as their serialized form. -/
structure ToolCall where
  id : String
  tool : ToolName
  args : String
deriving DecidableEq, Repr

/-- State of a tool call in the invocation ledger (spec section 3):
Pending, Approved, Rejected, Executed(result), Failed(error). -/
inductive ToolCallState
  | Pending
  | Approved
  | Rejected
  | Executed (result : String)
  | Failed (error : String)
deriving DecidableEq, Repr

/-- A state is execution-terminal when it is Executed or Failed. -/
def execTerminal : ToolCallState → Bool
  | ToolCallState.Executed _ => true
  | ToolCallState.Failed _ => true
  | _ => false

/-- One record of the invocation ledger: the call, its current state, and
how many times the capability execute function has been invoked for it. -/
structure LedgerEntry where
  call : ToolCall
  state : ToolCallState
  execCount : Nat
deriving DecidableEq, Repr

/-- Modelled from the spec: the Confirmation Gate's per-conversation state
(the server-side invocation ledger; the server module is not in the
available source tree).  Newest entries are at the head. -/
structure Gate where
  ledger : List LedgerEntry
deriving DecidableEq, Repr

def emptyGate : Gate := ⟨[]⟩

/-- Look up the entry for a tool-call id in a ledger (first match). -/
def lookupLedger : List LedgerEntry → String → Option LedgerEntry
  | [], _ => none
  | e :: es, id => if e.call.id == id then some e else lookupLedger es id

/-- Look up the ledger entry for a tool-call id. -/
def lookupEntry (g : Gate) (id : String) : Option LedgerEntry :=
  lookupLedger g.ledger id

/-- Number of capability invocations recorded for a call id. -/
def execCountOf (g : Gate) (id : String) : Nat :=
  match lookupEntry g id with
  | some e => e.execCount
  | none => 0

/-- Modelled from the spec: the Execution Dispatcher's run step (spec
section 4.3).  A capability is a function from tool name and arguments to a
result or an error; an error is mapped to Failed, a result to Executed. -/
def dispatchRun (cap : ToolName → String → Except String String)
    (c : ToolCall) : ToolCallState :=
  match cap c.tool c.args with
  | Except.ok r => ToolCallState.Executed r
  | Except.error e => ToolCallState.Failed e

/-- Modelled from the spec: `submit` (spec section 4.1).  If the tool
requires confirmation the call is stored Pending and Pending is returned;
otherwise the dispatcher runs synchronously and the terminal state is
stored and returned. -/
def submit (cap : ToolName → String → Except String String)
    (c : ToolCall) (g : Gate) : ToolCallState × Gate :=
  if requiresConfirmation c.tool then
    (ToolCallState.Pending, ⟨⟨c, ToolCallState.Pending, 0⟩ :: g.ledger⟩)
  else
    (dispatchRun cap c, ⟨⟨c, dispatchRun cap c, 1⟩ :: g.ledger⟩)

/-- Outcome of an approval decision: yes or no (shared APPROVAL values). -/
inductive Outcome
  | yes
  | no
deriving DecidableEq, Repr

/-- An approval decision submitted by the human for a pending call. -/
structure ApprovalDecision where
  toolCallId : String
  outcome : Outcome
deriving DecidableEq, Repr

/-- Errors of `resolve` (spec section 4.1): UnknownCall when no call with
that id exists, AlreadyResolved when the call is no longer Pending. -/
inductive ResolveError
  | UnknownCall
  | AlreadyResolved
deriving DecidableEq, Repr

/-- Update the state of the entry with the given id, adding `bump` to its
capability-invocation count.  The call itself is immutable. -/
def setEntry (g : Gate) (id : String) (st : ToolCallState) (bump : Nat) :
    Gate :=
  ⟨g.ledger.map (fun e =>
    if e.call.id == id then ⟨e.call, st, e.execCount + bump⟩ else e)⟩

/-- Modelled from the spec: `resolve` (spec section 4.1).  Fails with
UnknownCall if the id is unknown, AlreadyResolved if the call is not
Pending.  On yes it synchronously dispatches and stores the terminal
state; on no it stores Rejected without executing. -/
def resolve (cap : ToolName → String → Except String String)
    (d : ApprovalDecision) (g : Gate) :
    Except ResolveError (ToolCallState × Gate) :=
  match lookupEntry g d.toolCallId with
  | none => Except.error ResolveError.UnknownCall
  | some e =>
    match e.state with
    | ToolCallState.Pending =>
      match d.outcome with
      | Outcome.no =>
        Except.ok (ToolCallState.Rejected,
          setEntry g d.toolCallId ToolCallState.Rejected 0)
      | Outcome.yes =>
        Except.ok (dispatchRun cap e.call,
          setEntry g d.toolCallId (dispatchRun cap e.call) 1)
    | _ => Except.error ResolveError.AlreadyResolved

/-- An external event hitting the gate: a submitted call or an approval
decision. -/
inductive Event
  | submitEv (c : ToolCall)
  | resolveEv (d : ApprovalDecision)
deriving DecidableEq, Repr

/-- One event step on the gate state; a failed resolve leaves the gate
unchanged. -/
def step (cap : ToolName → String → Except String String)
    (g : Gate) (e : Event) : Gate :=
  match e with
  | Event.submitEv c => (submit cap c g).2
  | Event.resolveEv d =>
    match resolve cap d g with
    | Except.ok p => p.2
    | Except.error _ => g

/-- Run a sequence of events from the empty gate. -/
def runEvents (cap : ToolName → String → Except String String)
    (es : List Event) : Gate :=
  es.foldl (step cap) emptyGate

/-! ## Booking executions (bookingTools, `bookingExecutions`) -/

/-- One booking item, as in the createBooking/updateBooking parameter
schemas (bookingTools): material id and quantity. -/
structure BookingItem where
  material_Product : String
  quantity : Int
deriving DecidableEq, Repr

/-- Arguments of `bookingExecutions.createBooking` (bookingTools lines
331-345). -/
structure CreateBookingArgs where
  soldTo_ID : String
  shipTo_ID : String
  bookingType : String
  requestedDeliveryDate : String
  bookingItems : List BookingItem
  isActiveEntity : Bool
deriving DecidableEq, Repr

/-- The POST body built by `bookingExecutions.createBooking` (the
`bookingData` object, bookingTools lines 350-357). -/
structure BookingData where
  soldTo_ID : String
  shipTo_ID : String
  type_code : String
  requestedDelivery : String
  IsActiveEntity : Bool
  items : List BookingItem
deriving DecidableEq, Repr

/-- Field-by-field construction of the `bookingData` request body from the
arguments, as written in the source. -/
def bookingDataOf (a : CreateBookingArgs) : BookingData :=
  { soldTo_ID := a.soldTo_ID
    shipTo_ID := a.shipTo_ID
    type_code := a.bookingType
    requestedDelivery := a.requestedDeliveryDate
    IsActiveEntity := a.isActiveEntity
    items := a.bookingItems }

/-- The relevant shape of the booking returned by the API: the `id` field
may be absent (the source reads `newBooking.id || "Unknown"`). -/
structure NewBooking where
  id : Option String
deriving DecidableEq, Repr

/-- Return value of `bookingExecutions.createBooking`: the success record
carries the booking id and details, the failure record only a message. -/
structure CreateBookingResult where
  success : Bool
  message : String
  bookingId : Option String
  details : Option NewBooking
deriving DecidableEq, Repr

/-- `bookingExecutions.createBooking` (bookingTools lines 331-381).  The
network call `fetchApi('Bookings', {method POST, body bookingData})` is the
effect parameter `fetchPost`; the try/catch of the source is the match on
its Except result: an error is caught and mapped to a `success := false`
record, never rethrown (the function is total into `CreateBookingResult`). -/
def createBookingExec (fetchPost : BookingData → Except String NewBooking)
    (a : CreateBookingArgs) : CreateBookingResult :=
  match fetchPost (bookingDataOf a) with
  | Except.ok nb =>
    { success := true
      message := "Booking successfully created for customer ID: " ++ a.soldTo_ID
      bookingId := some (nb.id.getD "Unknown")
      details := some nb }
  | Except.error e =>
    { success := false
      message := "Failed to create booking: " ++ e
      bookingId := none
      details := none }

/-- Arguments of `bookingExecutions.updateBooking` (bookingTools lines
383-398): every field except `bookingId` is optional (`none` models a
JavaScript `undefined`, i.e. an omitted argument). -/
structure UpdateBookingArgs where
  bookingId : String
  soldTo_ID : Option String
  shipTo_ID : Option String
  bookingType : Option String
  requestedDeliveryDate : Option String
  bookingItems : Option (List BookingItem)
  isActiveEntity : Option Bool
deriving DecidableEq, Repr

/-- The destructuring default `isActiveEntity = true` of
`bookingExecutions.updateBooking`: the local variable is the supplied value
when one was given, and `true` when the argument was omitted (undefined).
The local is therefore never undefined, which we record by returning a
value under `some` in every case. -/
def updateBooking_localIsActiveEntity (a : UpdateBookingArgs) : Option Bool :=
  match a.isActiveEntity with
  | none => some true
  | some b => some b

/-- The PATCH body built by `bookingExecutions.updateBooking` (the
`updateData` object, bookingTools lines 407-414): `none` means the field is
absent from the body. -/
structure UpdateData where
  soldTo_ID : Option String
  shipTo_ID : Option String
  type_code : Option String
  requestedDelivery : Option String
  items : Option (List BookingItem)
  IsActiveEntity : Option Bool
deriving DecidableEq, Repr

/-- JavaScript truthiness of an optional string (`if (soldTo_ID) ...`): an
omitted argument and the empty string are both falsy. -/
def strTruthy : Option String → Option String
  | some s => if s == "" then none else some s
  | none => none

/-- Construction of `updateData` (bookingTools lines 407-414).  String
fields are included when truthy, `items` when the array argument was given
(arrays are always truthy), and `IsActiveEntity` when the local
`isActiveEntity` is not undefined (the guard `isActiveEntity !== undefined`). -/
def mkUpdateData (a : UpdateBookingArgs) : UpdateData :=
  { soldTo_ID := strTruthy a.soldTo_ID
    shipTo_ID := strTruthy a.shipTo_ID
    type_code := strTruthy a.bookingType
    requestedDelivery := strTruthy a.requestedDeliveryDate
    items := a.bookingItems
    IsActiveEntity :=
      match updateBooking_localIsActiveEntity a with
      | some b => some b
      | none => none }

/-! ## The scheduleTask tool (tools.ts lines 59-90) -/

/-- The schedule input union accepted by the scheduleTask tool (the
`unstable_scheduleSchema` wire format, spec section 6, plus the
`no-schedule` variant handled at tools.ts lines 71-73).  Timestamps and
delays are modelled as integers (seconds). -/
inductive ScheduleWhen
  | noSchedule
  | scheduled (date : Int)
  | delayed (delayInSeconds : Int)
  | cron (cronExpr : String)
deriving DecidableEq, Repr

/-- The schedule input forwarded to `agent.schedule` per variant (the
chained conditional at tools.ts lines 74-81), rendered as a string. -/
def scheduleInputString : ScheduleWhen → String
  | ScheduleWhen.noSchedule => ""
  | ScheduleWhen.scheduled d => toString d
  | ScheduleWhen.delayed s => toString s
  | ScheduleWhen.cron e => e

/-- The type tag of a schedule input, as interpolated into the success
message (`when.type`). -/
def scheduleTypeString : ScheduleWhen → String
  | ScheduleWhen.noSchedule => "no-schedule"
  | ScheduleWhen.scheduled _ => "scheduled"
  | ScheduleWhen.delayed _ => "delayed"
  | ScheduleWhen.cron _ => "cron"

/-- The execute function of the scheduleTask tool (tools.ts lines 62-89).
`agent` is the ambient agent context (`agentContext.getStore()`); absent
context throws "No agent found".  The agent's `schedule` method is the
effect parameter, receiving the schedule input, the action name
"executeTask" and the description, and producing ok or an error.  The
result pairs the returned string with the number of times `agent.schedule`
was invoked.  A `no-schedule` input returns early, before any schedule
call; a schedule error is caught and turned into an ordinary error-text
return. -/
def scheduleTask_execute
    (agent : Option (String → String → String → Except String Unit))
    (when : ScheduleWhen) (description : String) :
    Except String (String × Nat) :=
  match agent with
  | none => Except.error "No agent found"
  | some sched =>
    match when with
    | ScheduleWhen.noSchedule => Except.ok ("Not a valid schedule input", 0)
    | w =>
      match sched (scheduleInputString w) "executeTask" description with
      | Except.ok _ =>
        Except.ok ("Task scheduled for type \x22" ++ scheduleTypeString w
          ++ "\x22 : " ++ scheduleInputString w, 1)
      | Except.error e =>
        Except.ok ("Error scheduling task: " ++ e, 1)

/-! ## Task Scheduler (spec section 4.2)

The scheduler store and validation live in the agents runtime, outside the
available source tree; they are modelled from the specification. -/

/-- Scheduler trigger wire format (spec section 6): a one-shot absolute
timestamp, a delay in seconds, or a cron expression.  Times are integer
seconds. -/
inductive Trigger
  | scheduled (date : Int)
  | delayed (delayInSeconds : Int)
  | cron (expr : String)
deriving DecidableEq, Repr

/-- Scheduling failure (spec section 7): InvalidSchedule rejects a bad
trigger at schedule time. -/
inductive ScheduleError
  | InvalidSchedule
deriving DecidableEq, Repr

/-- Cancellation failure (spec section 7): NotFound when no task with the
given id exists. -/
inductive CancelError
  | NotFound
deriving DecidableEq, Repr

/-- Modelled from the spec: a stored scheduled task (spec section 3) with
its computed next-fire-time. -/
structure ScheduledTask where
  id : String
  conversationId : String
  actionName : String
  payload : String
  trigger : Trigger
  time : Int
deriving DecidableEq, Repr

/-- Modelled from the spec: the durable task store, kept ordered by
next-fire-time ascending (the scheduler's ordered index). -/
abbrev TaskStore := List ScheduledTask

/-- Count of space-separated nonempty fields in a character list; `inField`
records whether the previous character was inside a field. -/
def fieldCountAux : List Char → Bool → Nat
  | [], inField => if inField then 1 else 0
  | c :: cs, inField =>
    if c == ' ' then
      (if inField then 1 + fieldCountAux cs false else fieldCountAux cs false)
    else fieldCountAux cs true

/-- The number of whitespace-separated fields of a cron expression. -/
def cronFieldCount (s : String) : Nat :=
  fieldCountAux s.data false

/-- Modelled from the spec: well-formedness of a cron expression — a
5-or-6-field expression (spec section 6). -/
def cronWellFormed (s : String) : Bool :=
  cronFieldCount s == 5 || cronFieldCount s == 6

/-- Modelled from the spec: the next minute boundary strictly after `now`,
used as the next-fire-time of a cron task (spec section 8's cron example
advances on minute boundaries). -/
def cronNext (now : Int) : Int :=
  now + (60 - now % 60)

/-- Modelled from the spec: trigger validation and fire-time computation
(spec section 4.2).  `scheduled` must not lie in the past beyond the
tolerance; `delayed` converts a non-negative delay to `now + delay`;
`cron` requires a well-formed expression. -/
def computeFireTime (now tol : Int) : Trigger → Except ScheduleError Int
  | Trigger.scheduled d =>
    if d + tol < now then Except.error ScheduleError.InvalidSchedule
    else Except.ok d
  | Trigger.delayed s =>
    if s < 0 then Except.error ScheduleError.InvalidSchedule
    else Except.ok (now + s)
  | Trigger.cron e =>
    if cronWellFormed e then Except.ok (cronNext now)
    else Except.error ScheduleError.InvalidSchedule

/-- Ordered insertion into the task store, keyed by next-fire-time. -/
def insertTask (t : ScheduledTask) : TaskStore → TaskStore
  | [] => [t]
  | x :: xs =>
    if t.time ≤ x.time then t :: x :: xs else x :: insertTask t xs

/-- Modelled from the spec: `schedule` (spec section 4.2).  The trigger is
validated first; on failure the error is returned and the store is
untouched; on success the task is persisted (ordered insert) and its id
returned. -/
def schedule (now tol : Int) (trig : Trigger)
    (actionName payload conversationId taskId : String) (st : TaskStore) :
    Except ScheduleError String × TaskStore :=
  match computeFireTime now tol trig with
  | Except.error e => (Except.error e, st)
  | Except.ok t =>
    (Except.ok taskId,
     insertTask ⟨taskId, conversationId, actionName, payload, trig, t⟩ st)

/-- Modelled from the spec: `cancel` (spec section 4.2).  Fails with
NotFound, leaving the store unchanged, when no task carries the id;
otherwise removes the task. -/
def cancel (taskId : String) (st : TaskStore) :
    Except CancelError Unit × TaskStore :=
  if st.any (fun t => t.id == taskId) then
    (Except.ok (), st.filter (fun t => ¬ t.id == taskId))
  else
    (Except.error CancelError.NotFound, st)

/-- Modelled from the spec: `list` (spec section 4.2) — the tasks of one
conversation, in store order. -/
def listTasks (conversationId : String) (st : TaskStore) :
    List ScheduledTask :=
  st.filter (fun t => t.conversationId == conversationId)

/-- Modelled from the spec: one pass of the firing algorithm (spec section
4.2) at time `now`: due tasks are removed; a due cron task is re-inserted
with the next occurrence strictly after the firing time; one-shot tasks
are deleted. -/
def fireDue (now : Int) (st : TaskStore) : TaskStore :=
  let due := st.filter (fun t => t.time ≤ now)
  let rest := st.filter (fun t => ¬ t.time ≤ now)
  due.foldl (fun acc t =>
    match t.trigger with
    | Trigger.cron _ => insertTask { t with time := cronNext now } acc
    | _ => acc) rest

/-- An operation on the scheduler store: schedule, cancel, or a firing
pass. -/
inductive SchedOp
  | sched (now tol : Int) (trig : Trigger)
      (actionName payload conversationId taskId : String)
  | cancelOp (taskId : String)
  | fire (now : Int)
deriving DecidableEq, Repr

/-- Apply one scheduler operation to the store. -/
def applySchedOp (st : TaskStore) : SchedOp → TaskStore
  | SchedOp.sched now tol trig an p c id => (schedule now tol trig an p c id st).2
  | SchedOp.cancelOp id => (cancel id st).2
  | SchedOp.fire now => fireDue now st

/-- The store reached from the empty store by a sequence of scheduler
operations. -/
def storeOf (ops : List SchedOp) : TaskStore :=
  ops.foldl applySchedOp []

/-! ## Transcript tagging of scheduler firings -/

/-- Where a transcript entry originated: a scheduler firing, or the
user/model conversation. -/
inductive Origin
  | scheduler
  | userOrModel
deriving DecidableEq, Repr

/-- A transcript entry: its origin and its text. -/
structure TranscriptEntry where
  origin : Origin
  text : String
deriving DecidableEq, Repr

/-- Boolean test that `l` occurs at the start of `m` (character lists);
the semantics of the `startsWith` test used in app.tsx. -/
def leadsWith : List Char → List Char → Bool
  | [], _ => true
  | _ :: _, [] => false
  | a :: as, b :: bs => a == b && leadsWith as bs

/-- Modelled from the spec: the transcript entry produced when the
scheduler fires a task (the server-side executeTask handler, absent from
the available source tree): the reserved tag "scheduled message: " is
prepended to the task's description, matching the prefix stripped by
app.tsx line 433. -/
def schedulerEntry (description : String) : TranscriptEntry :=
  ⟨Origin.scheduler, "scheduled message: " ++ description⟩

/-- A transcript entry written by the user or the model, carrying its raw
text. -/
def userEntry (text : String) : TranscriptEntry :=
  ⟨Origin.userOrModel, text⟩

/-- The scheduler-origin test applied by the renderer (app.tsx lines
423-430): the entry text starts with "scheduled message". -/
def hasScheduledTag (e : TranscriptEntry) : Bool :=
  leadsWith "scheduled message".data e.text.data

/-! ## Gate lemmas -/

/-- A found ledger entry carries the looked-up id. -/
theorem lookupLedger_found :
    ∀ (l : List LedgerEntry) (id : String) (e : LedgerEntry),
      lookupLedger l id = some e → (e.call.id == id) = true := by
  intro l id e h
  induction l with
  | nil => simp [lookupLedger] at h
  | cons x xs ih =>
    by_cases hx : (x.call.id == id) = true
    · simp [lookupLedger, hx] at h
      rw [← h]
      exact hx
    · simp [lookupLedger, hx] at h
      exact ih h

/-- Lookup through a call-preserving map of the ledger. -/
theorem lookupLedger_map (f : LedgerEntry → LedgerEntry)
    (hf : ∀ e, (f e).call = e.call) :
    ∀ (l : List LedgerEntry) (id : String),
      lookupLedger (l.map f) id = (lookupLedger l id).map f := by
  intro l id
  induction l with
  | nil => rfl
  | cons x xs ih =>
    simp only [List.map_cons, lookupLedger, hf x]
    by_cases hx : (x.call.id == id) = true
    · simp [hx]
    · simp [hx, ih]

/-- Lookup after `setEntry`: the found entry, when any, is the original
entry with its state replaced and count bumped whenever its id matches. -/
theorem lookupEntry_setEntry (g : Gate) (i : String) (st : ToolCallState)
    (b : Nat) (id : String) :
    lookupEntry (setEntry g i st b) id =
      (lookupEntry g id).map (fun e =>
        if e.call.id == i then ⟨e.call, st, e.execCount + b⟩ else e) := by
  unfold lookupEntry setEntry
  exact lookupLedger_map _ (fun e => by by_cases h : (e.call.id == i) = true <;> simp [h]) g.ledger id

/-- The dispatcher's result is always execution-terminal. -/
theorem execTerminal_dispatchRun
    (cap : ToolName → String → Except String String) (c : ToolCall) :
    execTerminal (dispatchRun cap c) = true := by
  unfold dispatchRun
  cases cap c.tool c.args <;> simp [execTerminal]

/-- Inversion of a successful `resolve`: the call was Pending, and the
result is either the rejection or the dispatched terminal state. -/
theorem resolve_ok_inv (cap : ToolName → String → Except String String)
    (d : ApprovalDecision) (g : Gate) (st₁ : ToolCallState) (g₁ : Gate)
    (h : resolve cap d g = Except.ok (st₁, g₁)) :
    ∃ e : LedgerEntry, lookupEntry g d.toolCallId = some e ∧
      e.state = ToolCallState.Pending ∧
      ((d.outcome = Outcome.no ∧ st₁ = ToolCallState.Rejected ∧
          g₁ = setEntry g d.toolCallId ToolCallState.Rejected 0) ∨
       (d.outcome = Outcome.yes ∧ st₁ = dispatchRun cap e.call ∧
          g₁ = setEntry g d.toolCallId (dispatchRun cap e.call) 1)) := by
  unfold resolve at h
  split at h
  · cases h
  · rename_i e hl
    split at h
    · rename_i hst
      split at h
      · rename_i ho
        cases h
        exact ⟨e, hl, hst, Or.inl ⟨ho, rfl, rfl⟩⟩
      · rename_i ho
        cases h
        exact ⟨e, hl, hst, Or.inr ⟨ho, rfl, rfl⟩⟩
    · cases h

/-- One gate step can make a confirmation-required call execution-terminal
only through a yes-resolution naming that call; otherwise it was already
terminal beforehand. -/
theorem step_exec_confirm (cap : ToolName → String → Except String String)
    (g : Gate) (ev : Event) (id : String) (en : LedgerEntry)
    (hl : lookupEntry (step cap g ev) id = some en)
    (hc : requiresConfirmation en.call.tool = true)
    (ht : execTerminal en.state = true) :
    (∃ d : ApprovalDecision, ev = Event.resolveEv d ∧ d.toolCallId = id ∧
      d.outcome = Outcome.yes) ∨
    (∃ en₀ : LedgerEntry, lookupEntry g id = some en₀ ∧
      requiresConfirmation en₀.call.tool = true ∧
      execTerminal en₀.state = true) := by
  cases ev with
  | submitEv c =>
    right
    simp only [step, submit] at hl
    by_cases hrc : requiresConfirmation c.tool = true
    · simp only [hrc, if_true] at hl
      unfold lookupEntry lookupLedger at hl
      by_cases hid : (c.id == id) = true
      · simp only [hid, if_true] at hl
        cases hl
        simp [execTerminal] at ht
      · simp only [hid] at hl
        simp only [Bool.false_eq_true, if_false] at hl
        exact ⟨en, hl, hc, ht⟩
    · simp only [Bool.not_eq_true] at hrc
      simp only [hrc, Bool.false_eq_true, if_false] at hl
      unfold lookupEntry lookupLedger at hl
      by_cases hid : (c.id == id) = true
      · simp only [hid, if_true] at hl
        cases hl
        simp only at hc
        rw [hc] at hrc
        cases hrc
      · simp only [hid, Bool.false_eq_true, if_false] at hl
        exact ⟨en, hl, hc, ht⟩
  | resolveEv d =>
    simp only [step] at hl
    split at hl
    case h_2 => exact Or.inr ⟨en, hl, hc, ht⟩
    case h_1 p hres =>
      obtain ⟨e, he, hpend, hcase⟩ :=
        resolve_ok_inv cap d g p.1 p.2 (by rw [hres])
      by_cases hid : d.toolCallId = id
      · rcases hcase with ⟨ho, hst, hg⟩ | ⟨ho, hst, hg⟩
        · -- rejection: the entry for id is now Rejected, not terminal
          exfalso
          rw [hg, hid] at hl
          rw [lookupEntry_setEntry] at hl
          rw [hid] at he
          rw [he] at hl
          have hbeq : (e.call.id == id) = true := by
            have := lookupLedger_found g.ledger id e he
            exact this
          simp only [Option.map_some', hbeq, if_true, Option.some.injEq] at hl
          subst hl
          simp [execTerminal] at ht
        · exact Or.inl ⟨d, rfl, hid, ho⟩
      · right
        have hgset : ∃ st' b, p.2 = setEntry g d.toolCallId st' b := by
          rcases hcase with ⟨_, _, hg⟩ | ⟨_, _, hg⟩
          · exact ⟨ToolCallState.Rejected, 0, hg⟩
          · exact ⟨dispatchRun cap e.call, 1, hg⟩
        obtain ⟨st', b, hg⟩ := hgset
        rw [hg, lookupEntry_setEntry] at hl
        cases hl0 : lookupEntry g id with
        | none => rw [hl0] at hl; cases hl
        | some en₀ =>
          rw [hl0] at hl
          have hbeq : (en₀.call.id == id) = true :=
            lookupLedger_found g.ledger id en₀ hl0
          have hne : (en₀.call.id == d.toolCallId) = false := by
            rw [beq_iff_eq] at hbeq
            rw [hbeq]
            exact beq_eq_false_iff_ne.mpr (fun hcontra => hid hcontra.symm)
          simp only [Option.map_some', hne, Bool.false_eq_true, if_false,
            Option.some.injEq] at hl
          exact ⟨en₀, rfl, by rw [hl]; exact hc, by rw [hl]; exact ht⟩

/-- Over any event sequence from any start state: a confirmation-required
call that is execution-terminal at the end was either approved by a yes
decision within the sequence, or already terminal at the start. -/
theorem foldl_exec_confirm (cap : ToolName → String → Except String String) :
    ∀ (es : List Event) (g : Gate) (id : String) (en : LedgerEntry),
      lookupEntry (es.foldl (step cap) g) id = some en →
      requiresConfirmation en.call.tool = true →
      execTerminal en.state = true →
      (∃ d : ApprovalDecision, Event.resolveEv d ∈ es ∧ d.toolCallId = id ∧
        d.outcome = Outcome.yes) ∨
      (∃ en₀ : LedgerEntry, lookupEntry g id = some en₀ ∧
        requiresConfirmation en₀.call.tool = true ∧
        execTerminal en₀.state = true) := by
  intro es
  induction es with
  | nil =>
    intro g id en hl hc ht
    exact Or.inr ⟨en, hl, hc, ht⟩
  | cons ev es ih =>
    intro g id en hl hc ht
    rw [List.foldl_cons] at hl
    rcases ih (step cap g ev) id en hl hc ht with ⟨d, hm, hdid, hdo⟩ | ⟨en₀, hl₀, hc₀, ht₀⟩
    · exact Or.inl ⟨d, List.mem_cons_of_mem _ hm, hdid, hdo⟩
    · rcases step_exec_confirm cap g ev id en₀ hl₀ hc₀ ht₀ with ⟨d, hev, hdid, hdo⟩ | hprev
      · exact Or.inl ⟨d, by rw [hev]; exact List.mem_cons_self _ _, hdid, hdo⟩
      · exact Or.inr hprev

/-- C1: for every tool with requiresConfirmation = true (createBooking and
updateBooking), no sequence of submit/resolve events brings the call to
Executed or Failed unless the sequence contains a resolve decision for
that call with outcome yes: submit stores it Pending and the capability is
not run before such an approval is accepted. -/
theorem confirmation_required_needs_yes
    (cap : ToolName → String → Except String String) (es : List Event)
    (id : String) (en : LedgerEntry)
    (hl : lookupEntry (runEvents cap es) id = some en)
    (hc : requiresConfirmation en.call.tool = true)
    (ht : execTerminal en.state = true) :
    ∃ d : ApprovalDecision, Event.resolveEv d ∈ es ∧ d.toolCallId = id ∧
      d.outcome = Outcome.yes := by
  rcases foldl_exec_confirm cap es emptyGate id en hl hc ht with
    h | ⟨en₀, h₀, _, _⟩
  · exact h
  · simp [lookupEntry, emptyGate, lookupLedger] at h₀

/-- A capability table used for concrete scenarios: every tool succeeds
with the result "done". -/
def demoCap : ToolName → String → Except String String :=
  fun _ _ => Except.ok "done"

/-- A concrete createBooking call used in the scenarios. -/
def demoCall : ToolCall := ⟨"c1", ToolName.createBooking, ""⟩

/-- The concrete event trace: submit the createBooking call, then approve
it. -/
def demoTrace : List Event :=
  [Event.submitEv demoCall, Event.resolveEv ⟨"c1", Outcome.yes⟩]

/-- Witness for C1: on the concrete trace that submits createBooking and
approves it, the call is Executed and the theorem yields the approval
decision inside the trace. -/
theorem confirmation_required_needs_yes_witness :
    ∃ d : ApprovalDecision, Event.resolveEv d ∈ demoTrace ∧
      d.toolCallId = "c1" ∧ d.outcome = Outcome.yes :=
  confirmation_required_needs_yes demoCap demoTrace "c1"
    ⟨demoCall, ToolCallState.Executed "done", 1⟩ rfl rfl rfl

/-- C2: once `resolve` has accepted a decision for a toolCallId, a second
`resolve` for the same id fails with AlreadyResolved rather than
re-executing, and across both calls the capability has been invoked at
most once (starting from an un-executed call). -/
theorem resolve_second_already_resolved
    (cap : ToolName → String → Except String String) (g : Gate)
    (id : String) (o₁ o₂ : Outcome) (st₁ : ToolCallState) (g₁ : Gate)
    (h : resolve cap ⟨id, o₁⟩ g = Except.ok (st₁, g₁))
    (h0 : execCountOf g id = 0) :
    resolve cap ⟨id, o₂⟩ g₁ = Except.error ResolveError.AlreadyResolved ∧
    execCountOf g₁ id ≤ 1 := by
  obtain ⟨e, he, hpend, hcase⟩ := resolve_ok_inv cap ⟨id, o₁⟩ g st₁ g₁ h
  have hbeq : (e.call.id == id) = true := lookupLedger_found g.ledger id e he
  have hcount : execCountOf g id = e.execCount := by
    unfold execCountOf
    rw [he]
  rcases hcase with ⟨ho, hst, hg⟩ | ⟨ho, hst, hg⟩
  · constructor
    · unfold resolve
      simp only []
      rw [hg]
      have : lookupEntry (setEntry g id ToolCallState.Rejected 0) id =
          some ⟨e.call, ToolCallState.Rejected, e.execCount + 0⟩ := by
        rw [lookupEntry_setEntry, he]
        simp only [Option.map_some', hbeq, if_true]
      rw [this]
    · rw [hg]
      unfold execCountOf
      rw [lookupEntry_setEntry, he]
      simp only [Option.map_some', hbeq, if_true]
      rw [hcount] at h0
      omega
  · constructor
    · unfold resolve
      simp only []
      rw [hg]
      have : lookupEntry (setEntry g id (dispatchRun cap e.call) 1) id =
          some ⟨e.call, dispatchRun cap e.call, e.execCount + 1⟩ := by
        rw [lookupEntry_setEntry, he]
        simp only [Option.map_some', hbeq, if_true]
      rw [this]
      unfold dispatchRun
      cases cap e.call.tool e.call.args <;> rfl
    · rw [hg]
      unfold execCountOf
      rw [lookupEntry_setEntry, he]
      simp only [Option.map_some', hbeq, if_true]
      rw [hcount] at h0
      omega

/-- Witness for C2: the concrete createBooking call is approved once and
executed; the duplicate approval signal fails with AlreadyResolved and the
capability count stays at one. -/
theorem resolve_second_already_resolved_witness :
    resolve demoCap ⟨"c1", Outcome.yes⟩
        ⟨[⟨demoCall, ToolCallState.Executed "done", 1⟩]⟩ =
      Except.error ResolveError.AlreadyResolved ∧
    execCountOf ⟨[⟨demoCall, ToolCallState.Executed "done", 1⟩]⟩ "c1" ≤ 1 :=
  resolve_second_already_resolved demoCap
    ⟨[⟨demoCall, ToolCallState.Pending, 0⟩]⟩ "c1" Outcome.yes Outcome.yes
    (ToolCallState.Executed "done")
    ⟨[⟨demoCall, ToolCallState.Executed "done", 1⟩]⟩ rfl rfl

/-- C7: submitting a call for getLocalTime (requiresConfirmation = false)
with arguments {location: "Berlin"} synchronously produces the terminal
state Executed with the capability's return value "10am" — the returned
state and the stored ledger entry are Executed at once, with no Pending
entry ever stored for the call. -/
theorem getLocalTime_submit_executes_synchronously
    (cap : ToolName → String → Except String String) (g : Gate) (id : String)
    (hcap : cap ToolName.getLocalTime "Berlin" =
      Except.ok (getLocalTime_execute "Berlin")) :
    submit cap ⟨id, ToolName.getLocalTime, "Berlin"⟩ g =
      (ToolCallState.Executed "10am",
       ⟨⟨⟨id, ToolName.getLocalTime, "Berlin"⟩,
         ToolCallState.Executed "10am", 1⟩ :: g.ledger⟩) := by
  unfold submit
  have hrc : requiresConfirmation
      (⟨id, ToolName.getLocalTime, "Berlin"⟩ : ToolCall).tool = false := rfl
  rw [hrc]
  simp only [Bool.false_eq_true, if_false]
  unfold dispatchRun
  simp only []
  rw [hcap]
  rfl

/-- The capability table induced by the source registry for the tools that
carry an execute function; only getLocalTime is needed by the scenarios,
the confirmation-required tools have no automatic execute function. -/
def registryCap : ToolName → String → Except String String :=
  fun t args =>
    match t with
    | ToolName.getLocalTime => Except.ok (getLocalTime_execute args)
    | _ => Except.error "no automatic execute function"

/-- Witness for C7: with the registry capability and the empty gate, the
getLocalTime call for Berlin is immediately Executed with "10am". -/
theorem getLocalTime_submit_executes_synchronously_witness :
    submit registryCap ⟨"t1", ToolName.getLocalTime, "Berlin"⟩ emptyGate =
      (ToolCallState.Executed "10am",
       ⟨[⟨⟨"t1", ToolName.getLocalTime, "Berlin"⟩,
          ToolCallState.Executed "10am", 1⟩]⟩) :=
  getLocalTime_submit_executes_synchronously registryCap emptyGate "t1" rfl

/-- C3: capability errors never escape.  The createBooking execution maps
any error of its API call to the caught failure record (success false,
message "Failed to create booking: ..."), the scheduleTask tool maps a
schedule error to an ordinary error-text return, and the dispatcher maps
any capability error to the Failed state — in every case the error is
returned as data, not propagated. -/
theorem capability_errors_are_contained
    (fetchPost : BookingData → Except String NewBooking)
    (a : CreateBookingArgs) (e : String)
    (cap : ToolName → String → Except String String) (c : ToolCall)
    (sched : String → String → String → Except String Unit)
    (ce descr : String)
    (h₁ : fetchPost (bookingDataOf a) = Except.error e)
    (h₂ : cap c.tool c.args = Except.error e)
    (h₃ : sched ce "executeTask" descr = Except.error e) :
    createBookingExec fetchPost a =
      ⟨false, "Failed to create booking: " ++ e, none, none⟩ ∧
    dispatchRun cap c = ToolCallState.Failed e ∧
    scheduleTask_execute (some sched) (ScheduleWhen.cron ce) descr =
      Except.ok ("Error scheduling task: " ++ e, 1) := by
  refine ⟨?_, ?_, ?_⟩
  · unfold createBookingExec
    rw [h₁]
  · unfold dispatchRun
    rw [h₂]
  · unfold scheduleTask_execute
    simp only [scheduleInputString]
    rw [h₃]

/-- Witness for C3: a failing API, capability and scheduler all produce
the caught failure values at concrete inputs. -/
theorem capability_errors_are_contained_witness :
    createBookingExec (fun _ => Except.error "boom")
        ⟨"s1", "sh1", "bt", "2025-01-01", [], true⟩ =
      ⟨false, "Failed to create booking: " ++ "boom", none, none⟩ ∧
    dispatchRun (fun _ _ => Except.error "boom") demoCall =
      ToolCallState.Failed "boom" ∧
    scheduleTask_execute (some (fun _ _ _ => Except.error "boom"))
        (ScheduleWhen.cron "* * * * *") "ping" =
      Except.ok ("Error scheduling task: " ++ "boom", 1) :=
  capability_errors_are_contained (fun _ => Except.error "boom")
    ⟨"s1", "sh1", "bt", "2025-01-01", [], true⟩ "boom"
    (fun _ _ => Except.error "boom") demoCall
    (fun _ _ _ => Except.error "boom") "* * * * *" "ping" rfl rfl rfl

/-- C4: trigger validation at schedule time.  A `scheduled` timestamp
already in the past beyond the tolerance fails with InvalidSchedule; a
non-negative `delayed` duration is converted to the absolute fire time
now + delay and the task is persisted with that time; a malformed cron
expression fails with InvalidSchedule; and whenever schedule fails the
task store is returned unchanged — nothing is persisted. -/
theorem schedule_validates_triggers
    (now tol ts delta : Int) (expr : String) (trig : Trigger)
    (an p cid tid : String) (st : TaskStore)
    (hAt : ts + tol < now) (hd : 0 ≤ delta)
    (hcron : cronWellFormed expr = false)
    (hfail : ∃ err, (schedule now tol trig an p cid tid st).1 =
      Except.error err) :
    schedule now tol (Trigger.scheduled ts) an p cid tid st =
      (Except.error ScheduleError.InvalidSchedule, st) ∧
    schedule now tol (Trigger.delayed delta) an p cid tid st =
      (Except.ok tid,
       insertTask ⟨tid, cid, an, p, Trigger.delayed delta, now + delta⟩ st) ∧
    schedule now tol (Trigger.cron expr) an p cid tid st =
      (Except.error ScheduleError.InvalidSchedule, st) ∧
    (schedule now tol trig an p cid tid st).2 = st := by
  refine ⟨?_, ?_, ?_, ?_⟩
  · simp only [schedule, computeFireTime]
    rw [if_pos hAt]
  · simp only [schedule, computeFireTime]
    rw [if_neg (not_lt.mpr hd)]
  · simp only [schedule, computeFireTime, hcron, Bool.false_eq_true,
      if_false]
  · obtain ⟨err, herr⟩ := hfail
    unfold schedule at herr ⊢
    split
    · rfl
    · rename_i t0 heq
      rw [heq] at herr
      simp at herr

/-- Witness for C4: at now = 100 with tolerance 1, a timestamp of 50 and
the cron expression "bad" are rejected without persisting, and a delay of
5 seconds is persisted with fire time 105. -/
theorem schedule_validates_triggers_witness :
    schedule 100 1 (Trigger.scheduled 50) "executeTask" "ping" "conv" "t1" [] =
      (Except.error ScheduleError.InvalidSchedule, []) ∧
    schedule 100 1 (Trigger.delayed 5) "executeTask" "ping" "conv" "t1" [] =
      (Except.ok "t1",
       insertTask ⟨"t1", "conv", "executeTask", "ping",
         Trigger.delayed 5, 105⟩ []) ∧
    schedule 100 1 (Trigger.cron "bad") "executeTask" "ping" "conv" "t1" [] =
      (Except.error ScheduleError.InvalidSchedule, []) ∧
    (schedule 100 1 (Trigger.cron "bad") "executeTask" "ping" "conv" "t1" []).2
      = [] :=
  schedule_validates_triggers 100 1 50 5 "bad" (Trigger.cron "bad")
    "executeTask" "ping" "conv" "t1" [] (by decide) (by decide) (by decide)
    ⟨ScheduleError.InvalidSchedule, rfl⟩

/-- C5: cancelling an id that matches no stored task returns NotFound and
leaves the task store exactly as it was — no task added, removed, or
modified. -/
theorem cancel_unknown_id_not_found (tid : String) (st : TaskStore)
    (h : ∀ t ∈ st, t.id ≠ tid) :
    cancel tid st = (Except.error CancelError.NotFound, st) := by
  unfold cancel
  have hany : (st.any (fun t => t.id == tid)) = false := by
    rw [List.any_eq_false]
    intro t ht
    simp only [beq_iff_eq]
    exact h t ht
  rw [hany]
  simp only [Bool.false_eq_true, if_false]

/-- Witness for C5: cancelling the unknown id "zz" on a one-task store
fails with NotFound and leaves the store untouched. -/
theorem cancel_unknown_id_not_found_witness :
    cancel "zz" [⟨"t1", "conv", "executeTask", "ping", Trigger.delayed 5, 105⟩]
      = (Except.error CancelError.NotFound,
         [⟨"t1", "conv", "executeTask", "ping", Trigger.delayed 5, 105⟩]) :=
  cancel_unknown_id_not_found "zz"
    [⟨"t1", "conv", "executeTask", "ping", Trigger.delayed 5, 105⟩]
    (by decide)

/-- Membership in an ordered insert: the new task or an old one. -/
theorem mem_insertTask (t : ScheduledTask) :
    ∀ (l : List ScheduledTask) (y : ScheduledTask),
      y ∈ insertTask t l → y = t ∨ y ∈ l := by
  intro l
  induction l with
  | nil =>
    intro y hy
    simp only [insertTask, List.mem_singleton] at hy
    exact Or.inl hy
  | cons x xs ih =>
    intro y hy
    simp only [insertTask] at hy
    by_cases h : t.time ≤ x.time
    · rw [if_pos h] at hy
      rcases List.mem_cons.mp hy with h1 | h2
      · exact Or.inl h1
      · exact Or.inr h2
    · rw [if_neg h] at hy
      rcases List.mem_cons.mp hy with h1 | h2
      · exact Or.inr (by rw [h1]; exact List.mem_cons_self x xs)
      · rcases ih y h2 with h3 | h4
        · exact Or.inl h3
        · exact Or.inr (List.mem_cons_of_mem x h4)

/-- Ordered insert preserves the time ordering of the store. -/
theorem pairwise_insertTask (t : ScheduledTask) :
    ∀ l : List ScheduledTask,
      List.Pairwise (fun a b => a.time ≤ b.time) l →
      List.Pairwise (fun a b => a.time ≤ b.time) (insertTask t l) := by
  intro l
  induction l with
  | nil =>
    intro _
    simp [insertTask]
  | cons x xs ih =>
    intro hp
    rw [List.pairwise_cons] at hp
    obtain ⟨hx, hxs⟩ := hp
    simp only [insertTask]
    by_cases h : t.time ≤ x.time
    · rw [if_pos h]
      refine List.Pairwise.cons ?_ (List.Pairwise.cons hx hxs)
      intro y hy
      rcases List.mem_cons.mp hy with rfl | hy'
      · exact h
      · exact le_trans h (hx y hy')
    · rw [if_neg h]
      refine List.Pairwise.cons ?_ (ih hxs)
      intro y hy
      rcases mem_insertTask t xs y hy with rfl | hy'
      · exact le_of_not_le h
      · exact hx y hy'

/-- The firing fold preserves the time ordering of the store. -/
theorem pairwise_fireFold (now : Int) :
    ∀ (due acc : List ScheduledTask),
      List.Pairwise (fun a b => a.time ≤ b.time) acc →
      List.Pairwise (fun a b => a.time ≤ b.time)
        (due.foldl (fun acc t =>
          match t.trigger with
          | Trigger.cron _ => insertTask { t with time := cronNext now } acc
          | _ => acc) acc) := by
  intro due
  induction due with
  | nil => intro acc h; exact h
  | cons t ts ih =>
    intro acc h
    rw [List.foldl_cons]
    apply ih
    split
    · exact pairwise_insertTask _ acc h
    · exact h

/-- A firing pass preserves the time ordering of the store. -/
theorem pairwise_fireDue (now : Int) (st : TaskStore)
    (h : List.Pairwise (fun a b => a.time ≤ b.time) st) :
    List.Pairwise (fun a b => a.time ≤ b.time) (fireDue now st) := by
  unfold fireDue
  exact pairwise_fireFold now _ _ (h.filter _)

/-- Every scheduler operation preserves the time ordering of the store. -/
theorem pairwise_applySchedOp (st : TaskStore) (op : SchedOp)
    (h : List.Pairwise (fun a b => a.time ≤ b.time) st) :
    List.Pairwise (fun a b => a.time ≤ b.time) (applySchedOp st op) := by
  cases op with
  | sched now tol trig an p c id =>
    simp only [applySchedOp, schedule]
    split
    · exact h
    · exact pairwise_insertTask _ st h
  | cancelOp id =>
    simp only [applySchedOp, cancel]
    split
    · exact h.filter _
    · exact h
  | fire now => exact pairwise_fireDue now st h

/-- C6: for every conversation and every store reachable from the empty
store by schedule/cancel/fire operations, `list` returns that
conversation's tasks ordered by next-fire-time ascending. -/
theorem listTasks_sorted_by_fire_time (ops : List SchedOp)
    (conversationId : String) :
    List.Pairwise (fun a b => a.time ≤ b.time)
      (listTasks conversationId (storeOf ops)) := by
  have hstore : ∀ (l : List SchedOp) (st : TaskStore),
      List.Pairwise (fun a b => a.time ≤ b.time) st →
      List.Pairwise (fun a b => a.time ≤ b.time)
        (l.foldl applySchedOp st) := by
    intro l
    induction l with
    | nil => intro st h; exact h
    | cons o os ih =>
      intro st h
      rw [List.foldl_cons]
      exact ih _ (pairwise_applySchedOp st o h)
  unfold listTasks storeOf
  exact (hstore ops [] (by simp)).filter _

/-- If `l` occurs at the start of `s` it also occurs at the start of
`s ++ t`. -/
theorem leadsWith_append (l : List Char) :
    ∀ (s t : List Char), leadsWith l s = true → leadsWith l (s ++ t) = true := by
  induction l with
  | nil => intro s t _; rfl
  | cons a as ih =>
    intro s t h
    cases s with
    | nil => simp [leadsWith] at h
    | cons b bs =>
      simp only [leadsWith, Bool.and_eq_true] at h
      simp only [List.cons_append, leadsWith, Bool.and_eq_true]
      exact ⟨h.1, ih bs t h.2⟩

/-- C8: the transcript entry produced by a scheduler firing always carries
the reserved tag (the renderer's startsWith test accepts it), while a
user/model entry whose text does not start with the reserved tag is never
classified as scheduler-originated — so the tag decides, for any such
entry, whether it came from a scheduled action. -/
theorem scheduler_entries_tagged (description u : String)
    (hu : leadsWith "scheduled message".data u.data = false) :
    hasScheduledTag (schedulerEntry description) = true ∧
    hasScheduledTag (userEntry u) = false := by
  constructor
  · unfold hasScheduledTag schedulerEntry
    simp only [String.data_append]
    exact leadsWith_append _ _ _ (by decide)
  · exact hu

/-- Witness for C8: the firing for description "ping" is tagged, and the
user text "hello" is not. -/
theorem scheduler_entries_tagged_witness :
    hasScheduledTag (schedulerEntry "ping") = true ∧
    hasScheduledTag (userEntry "hello") = false :=
  scheduler_entries_tagged "ping" "hello" (by decide)

/-- C9: a `no-schedule` input makes the scheduleTask tool return the plain
string "Not a valid schedule input" as an ordinary successful result: no
error is raised, and `agent.schedule` is invoked zero times, so no task is
created. -/
theorem scheduleTask_noSchedule_plain_return
    (sched : String → String → String → Except String Unit)
    (description : String) :
    scheduleTask_execute (some sched) ScheduleWhen.noSchedule description =
      Except.ok ("Not a valid schedule input", 0) := rfl

/-- C10: in updateBooking the destructuring default makes the local
isActiveEntity `true` whenever the argument was omitted, hence the local
is never undefined, the `!== undefined` guard passes, and the PATCH body
always contains the IsActiveEntity field with the defaulted value. -/
theorem updateBooking_isActiveEntity_always_sent (a : UpdateBookingArgs) :
    updateBooking_localIsActiveEntity a = some (a.isActiveEntity.getD true) ∧
    (mkUpdateData a).IsActiveEntity = some (a.isActiveEntity.getD true) ∧
    ((mkUpdateData a).IsActiveEntity).isSome = true := by
  cases h : a.isActiveEntity with
  | none =>
    refine ⟨?_, ?_, ?_⟩ <;>
      simp [updateBooking_localIsActiveEntity, mkUpdateData, h]
  | some b =>
    refine ⟨?_, ?_, ?_⟩ <;>
      simp [updateBooking_localIsActiveEntity, mkUpdateData, h]
